import Mathlib

/-!
Shallow embedding of `src/main.py` (a creator-discovery pipeline).

External capabilities are modelled as explicit parameters:
* the text-generation call (`client_oa.chat.completions.create` plus the
  access `resp.choices[0].message.content`) is an `Except Unit (Option String)`:
  `.error` when the call itself raises (this happens OUTSIDE the `try` in
  `generate_keywords`), `.ok none` when accessing the content raises inside the
  `try` (empty `choices`, `None` content — `json.loads(None)` raises and is
  caught), `.ok (some s)` when a content string is obtained;
* `json.loads` is an abstract parse function `String → Option Json`
  (`none` = parse error, raised inside the `try` and caught);
* the search capability (`client_tw.search_recent_tweets`) maps a keyword to
  `Except Unit (Option (List User))`: `.error` = the call raised, `.ok none` =
  response without `includes`/`"users"`, `.ok (some us)` = included users;
* the timeline capability (`client_tw.get_users_tweets`) maps an author id to
  `Except Unit (Option (List Unit))`: `.error` = raised, `.ok none` = falsy
  response or no `data`, `.ok (some posts)` = post list (only its length is
  consumed, so posts are `Unit`).

Machine integers do not overflow here (Python ints are unbounded), so counts
are `Nat`. `avg_posts_per_week` is a Python float, but its value `t / 2` for a
post count `t ≤ 100` is exactly representable, and `round(x, 2)` at such inputs
is exact, so `ℚ` models it faithfully. File writes are modelled as an explicit
list of (file name, document) pairs returned alongside the result.
-/

namespace CreatorPipeline

/-- Constant `MIN_FOLLOWERS = 5000` (src/main.py line 20). -/
def MIN_FOLLOWERS : Nat := 5000

/-- Constant `MIN_TWEETS_2W = 6` (src/main.py line 21). -/
def MIN_TWEETS_2W : Nat := 6

/-- A parsed JSON value, as consumed by the pipeline.  `arr xs` is a JSON array
(the pipeline only ever treats its elements as query strings); `notArr it` is
any non-array JSON value, where `it` records what Python iteration over that
value yields (`some keys` for a dict or string, `none` for a value whose
iteration raises `TypeError`, such as a number or `null`). -/
inductive Json where
  | arr (xs : List String)
  | notArr (it : Option (List String))
deriving DecidableEq, Repr

/-- The fixed fallback keyword list of `generate_keywords` (line 34). -/
def fallbackJson : Json :=
  Json.arr ["US stock market", "Wall Street", "S&P 500"]

/-- The text-generation capability: the outcome of the `create` call for a
given topic and keyword count (the prompt embeds both). -/
abbrev LlmCap : Type := String → Nat → Except Unit (Option String)

/-- Function `generate_keywords` (lines 23-34).  The `create` call is outside the
`try`, so a capability error propagates; only failures of
`json.loads(resp.choices[0].message.content)` fall back. -/
def generate_keywords (llm : LlmCap) (loads : String → Option Json)
    (topic : String := "US financial markets") (n : Nat := 3) : Except Unit Json :=
  match llm topic n with
  | .error e => .error e
  | .ok none => .ok fallbackJson
  | .ok (some s) =>
    match loads s with
    | none => .ok fallbackJson
    | some j => .ok j

/-- An included user object of a search response: `u.id` (already rendered as
a string by `str(u.id)`), `u.username`, and `u.public_metrics.get("followers_count", 0)`
modelled as an optional count. -/
structure User where
  id : String
  username : String
  followers_count : Option Nat
deriving DecidableEq, Repr

/-- The value stored in the `authors` dict for one user (lines 50-53). -/
structure AuthorInfo where
  username : String
  followers : Nat
deriving DecidableEq, Repr

/-- The value inserted for user `u`: `followers_count` defaults to 0 via
`.get("followers_count", 0)`. -/
def toInfo (u : User) : AuthorInfo :=
  { username := u.username, followers := u.followers_count.getD 0 }

/-- The `authors` dict, as an insertion-ordered association list — the model
of a Python `dict`, whose iteration order is insertion order and whose
overwrites keep the original position. -/
abbrev AuthorMap : Type := List (String × AuthorInfo)

/-- Assignment `authors[k] = v` on a Python dict: overwrite in place if the key is
present, otherwise append at the end. -/
def insertAuthor (m : AuthorMap) (k : String) (v : AuthorInfo) : AuthorMap :=
  if k ∈ m.map Prod.fst then
    m.map fun p => if p.1 = k then (k, v) else p
  else
    m ++ [(k, v)]

/-- The inner loop `for u in resp.includes["users"]` (lines 49-53). -/
def processUsers (m : AuthorMap) : List User → AuthorMap
  | [] => m
  | u :: us => processUsers (insertAuthor m u.id (toInfo u)) us

/-- Outcome of the search capability for one keyword. -/
abbrev SearchCap : Type := String → Except Unit (Option (List User))

/-- Outcome of the timeline capability for one author id. -/
abbrev TimelineCap : Type := String → Except Unit (Option (List Unit))

/-- The keyword loop of `search_authors` (lines 39-55), with the running
`authors` accumulator made explicit. A raised search is caught (`except` at
line 54) and the keyword skipped; a response without included users (the
`if resp.includes and "users" in resp.includes` guard) contributes nothing. -/
def saFrom (search : SearchCap) (m : AuthorMap) : List String → AuthorMap
  | [] => m
  | kw :: rest =>
    saFrom search
      (match search kw with
       | .ok (some us) => processUsers m us
       | _ => m) rest

/-- Function `search_authors` (lines 36-56): starts from the empty dict. The
`start_time` / query-string construction has no effect on the collected map
beyond fixing the behaviour of the capability, which is already a parameter. -/
def search_authors (search : SearchCap) (kws : List String) : AuthorMap :=
  saFrom search [] kws

/-- Function `count_tweets` (lines 58-64): `len(resp.data) if resp and resp.data else 0`,
with every raise caught and turned into 0. An empty `data` list is falsy in
Python and yields 0, which coincides with its length. -/
def count_tweets (timeline : TimelineCap) (uid : String) : Nat :=
  match timeline uid with
  | .error _ => 0
  | .ok none => 0
  | .ok (some posts) => posts.length

/-- One entry of the persisted result list (lines 73-79). -/
structure ResultEntry where
  profile_url : String
  username : String
  followers : Nat
  tweets_last_2_weeks : Nat
  avg_posts_per_week : ℚ
deriving DecidableEq, Repr

/-- Python `round(x, 2)`: round to 2 decimal places.  Every value actually
rounded by this program is `t / 2` for a post count `t`, whose hundredfold is
an integer, so no tie-breaking rule is ever exercised. -/
def round2 (q : ℚ) : ℚ := (round (q * 100) : ℚ) / 100

/-- The dict appended for a qualifying candidate (lines 73-79). -/
def mkEntry (info : AuthorInfo) (t : Nat) : ResultEntry :=
  { profile_url := "https://x.com/" ++ info.username
    username := info.username
    followers := info.followers
    tweets_last_2_weeks := t
    avg_posts_per_week := round2 ((t : ℚ) / 2) }

/-- The filter guard of line 72:
`info["followers"] >= MIN_FOLLOWERS and t >= MIN_TWEETS_2W`. -/
def passesFilter (followers t : Nat) : Bool :=
  decide (MIN_FOLLOWERS ≤ followers) && decide (MIN_TWEETS_2W ≤ t)

/-- The result-building loop of `run_pipeline` (lines 70-79): iterate the
`authors` dict in order, measure each candidate, keep those passing the
filter. -/
def buildResults (timeline : TimelineCap) : AuthorMap → List ResultEntry
  | [] => []
  | (uid, info) :: rest =>
    let t := count_tweets timeline uid
    if passesFilter info.followers t then
      mkEntry info t :: buildResults timeline rest
    else
      buildResults timeline rest

/-- Value `result_data` as written by `run_crewai` (lines 128-141): either a value
extracted from the kickoff result via the `hasattr` chain, or the list
produced by the fallback `run_pipeline` call. -/
inductive ResultDataRepr where
  | raw (s : String)
  | toDict (s : String)
  | jsonOf (s : String)
  | obj
  | pipeline (rs : List ResultEntry)
deriving DecidableEq, Repr

/-- What the persistence sink receives: `{"topic": topic, "results": results}`
(line 81 and line 141).  `run_pipeline` always writes a list of entries;
`run_crewai` writes whatever `result_data` it extracted. -/
inductive SinkDoc where
  | entries (topic : String) (results : List ResultEntry)
  | data (topic : String) (results : ResultDataRepr)
deriving DecidableEq, Repr

/-- A file write performed by the program: (file name, document). -/
abbrev Write : Type := String × SinkDoc

/-- The external world seen by `run_pipeline`: the four capabilities that the
direct pipeline consumes. -/
structure Env where
  llm : LlmCap
  loads : String → Option Json
  search : SearchCap
  timeline : TimelineCap

/-- What Python iteration over a parsed JSON value yields when used as the
keyword sequence of `search_authors` (`for kw in keywords`): the elements of
an array, the iteration sequence of any other iterable value, and `none`
(a raised `TypeError`) for a non-iterable value. -/
def iterStrings : Json → Option (List String)
  | .arr xs => some xs
  | .notArr it => it

/-- Function `run_pipeline` (lines 66-83): keyword generation, author collection,
per-author measurement with filtering, then one write of
`{"topic": topic, "results": results}` to `results.json`.  `.error` means the
Python function raised (the only raising step is `generate_keywords`, plus the
`TypeError` of iterating a non-iterable parsed value). -/
def run_pipeline (env : Env) (topic : String) :
    Except Unit (List ResultEntry × List Write) :=
  match generate_keywords env.llm env.loads topic with
  | .error e => .error e
  | .ok j =>
    match iterStrings j with
    | none => .error ()
    | some kws =>
      .ok (buildResults env.timeline (search_authors env.search kws),
           [("results.json",
             SinkDoc.entries topic
               (buildResults env.timeline (search_authors env.search kws)))])

/-- The result-building loop of `search_and_filter` (lines 101-110), embedded
separately from `buildResults` because the source duplicates the loop
verbatim; the guard is written as the raw conjunction of line 103. -/
def buildResultsTask (timeline : TimelineCap) : AuthorMap → List ResultEntry
  | [] => []
  | (uid, info) :: rest =>
    let t := count_tweets timeline uid
    if MIN_FOLLOWERS ≤ info.followers ∧ MIN_TWEETS_2W ≤ t then
      mkEntry info t :: buildResultsTask timeline rest
    else
      buildResultsTask timeline rest

/-- Function `search_and_filter` (lines 97-111), the closure run inside the CrewAI
task: same stages as `run_pipeline` but it returns the list without writing
any file.  `ctx` is the ignored task-context argument. -/
def search_and_filter (env : Env) (topic : String) (ctx : Unit) :
    Except Unit (List ResultEntry) :=
  match generate_keywords env.llm env.loads topic with
  | .error e => .error e
  | .ok j =>
    match iterStrings j with
    | none => .error ()
    | some kws =>
      .ok (buildResultsTask env.timeline (search_authors env.search kws))

/-- The object returned by `crew.kickoff()`, abstracted to the three
attributes probed by the `hasattr` chain (lines 128-135): each is `some s`
when the attribute exists (carrying its rendering), `none` otherwise. -/
structure KickoffResult where
  rawAttr : Option String
  toDictAttr : Option String
  jsonAttr : Option String
deriving DecidableEq, Repr

/-- The `hasattr` extraction chain of lines 128-135: `raw`, then `to_dict()`,
then `json`, else the result object itself. -/
def extractResultData (r : KickoffResult) : ResultDataRepr :=
  match r.rawAttr with
  | some s => .raw s
  | none =>
    match r.toDictAttr with
    | some s => .toDict s
    | none =>
      match r.jsonAttr with
      | some s => .jsonOf s
      | none => .obj

/-- The external world seen by `run_crewai`: the pipeline capabilities plus
the orchestration abstraction.  `crewai_available` is the import flag
`CREWAI_AVAILABLE` (lines 8-12); `construct` is the outcome of building the
`Agent`, `Task` and `Crew` objects (lines 89-124, OUTSIDE the `try`);
`kickoff` is the outcome of `crew.kickoff()` plus the attribute probing
(lines 127-135, inside the `try`). -/
structure CrewEnv extends Env where
  crewai_available : Bool
  construct : Except Unit Unit
  kickoff : Except Unit KickoffResult

/-- Function `run_crewai` (lines 85-144).  When CrewAI is unavailable it simply runs
the direct pipeline (line 87) — so only `results.json` is written.  When
available: object construction may raise and propagate; a raising `kickoff`
falls back to `run_pipeline(topic)` inside the handler (line 138, which also
writes `results.json`); in every surviving case `result_data` is then written
to `results_crewai.json` (lines 140-141). -/
def run_crewai (env : CrewEnv) (topic : String) :
    Except Unit (ResultDataRepr × List Write) :=
  if env.crewai_available = false then
    (run_pipeline env.toEnv topic).map fun p => (ResultDataRepr.pipeline p.1, p.2)
  else
    match env.construct with
    | .error e => .error e
    | .ok () =>
      match env.kickoff with
      | .ok r =>
        .ok (extractResultData r,
             [("results_crewai.json", SinkDoc.data topic (extractResultData r))])
      | .error _ =>
        match run_pipeline env.toEnv topic with
        | .error e => .error e
        | .ok (rs, ws) =>
          .ok (ResultDataRepr.pipeline rs,
               ws ++ [("results_crewai.json",
                       SinkDoc.data topic (ResultDataRepr.pipeline rs))])

/-- The users contributed by one keyword: the included users of a successful
response, nothing for a raising search or a response without users. -/
def respUsers (search : SearchCap) (kw : String) : List User :=
  match search kw with
  | .ok (some us) => us
  | _ => []

/-- All user objects processed by `search_authors`, in processing order:
the concatenation of the included-user lists of the successful responses. -/
def flatUsers (search : SearchCap) : List String → List User
  | [] => []
  | kw :: rest => respUsers search kw ++ flatUsers search rest

/-- The last user object with a given id in a list, if any — the occurrence
whose metadata wins under dict overwrite. -/
def lastWith : List User → String → Option User
  | [], _ => none
  | u :: us, j =>
    match lastWith us j with
    | some w => some w
    | none => if u.id = j then some u else none

/-- The keys of the `authors` dict, in iteration order. -/
def akeys (m : AuthorMap) : List String := m.map Prod.fst

/-- Dict lookup on the model: value of the unique entry with the given key. -/
def lookupA (m : AuthorMap) (k : String) : Option AuthorInfo :=
  (m.find? fun p => p.1 = k).map Prod.snd

/-- Keep the first occurrence of every element (Python dict key order for a
sequence of inserted keys). -/
def firstDedup (l : List String) : List String :=
  l.foldl (fun acc x => if x ∈ acc then acc else acc ++ [x]) []

/-- Whether an `Except` outcome is a success (the capability did not raise). -/
def isOkB {ε α : Type} : Except ε α → Bool
  | .ok _ => true
  | .error _ => false


/-! ## Concrete capability behaviours used by witnesses and counterexamples -/

/-- A parse function that fails on every string (every content is malformed
JSON). -/
def loadsNone : String → Option Json := fun _ => none

/-- A parse function that parses every string to a non-array JSON value whose
Python iteration yields nothing (for example the empty dict). -/
def loadsNotArr : String → Option Json := fun _ => some (Json.notArr (some []))

/-- A parse function that parses every string to the empty JSON array. -/
def loadsEmptyArr : String → Option Json := fun _ => some (Json.arr [])

/-- A text-generation capability that returns a content string. -/
def llmContent : LlmCap := fun _ _ => .ok (some "resp")

/-- A text-generation capability whose content access yields nothing
(content `None`). -/
def llmNoContent : LlmCap := fun _ _ => .ok none

/-- A text-generation capability whose `create` call raises. -/
def llmRaise : LlmCap := fun _ _ => .error ()

/-- A timeline capability answering two posts for every author. -/
def tlData : TimelineCap := fun _ => .ok (some [(), ()])

/-- A timeline capability answering an empty response for every author. -/
def tlNone : TimelineCap := fun _ => .ok none

/-- A timeline capability that raises for every author. -/
def tlErr : TimelineCap := fun _ => .error ()

/-- An environment whose text-generation call itself raises (and whose other
capabilities raise as well). -/
def envLlmRaises : Env :=
  { llm := llmRaise
    loads := loadsNone
    search := fun _ => .error ()
    timeline := fun _ => .error () }

/-- An environment where the `create` call succeeds with content `None`
(forcing the fallback keywords) while search and timeline always raise. -/
def envAllFail : Env :=
  { llm := llmNoContent
    loads := loadsNone
    search := fun _ => .error ()
    timeline := fun _ => .error () }

/-- An environment producing one qualifying candidate with 7 recent posts:
the fallback keywords are used, the first keyword finds user alice with 8000
followers, and the timeline reports 7 posts. -/
def env7 : Env :=
  { llm := llmNoContent
    loads := loadsNone
    search := fun kw =>
      if kw = "US stock market" then .ok (some [⟨"1", "alice", some 8000⟩])
      else .ok none
    timeline := fun _ => .ok (some (List.replicate 7 ())) }

/-- An environment in which the first keyword returns user 1 WITHOUT the
followers_count metric and the second keyword returns the same user WITH
8000 followers; the timeline reports 10 posts. -/
def envOverwrite : Env :=
  { llm := llmNoContent
    loads := loadsNone
    search := fun kw =>
      if kw = "US stock market" then .ok (some [⟨"1", "a", none⟩])
      else if kw = "Wall Street" then .ok (some [⟨"1", "a", some 8000⟩])
      else .ok none
    timeline := fun _ => .ok (some (List.replicate 10 ())) }

/-- A crew environment where the orchestration abstraction is unavailable. -/
def envU : CrewEnv :=
  { toEnv := envAllFail
    crewai_available := false
    construct := .ok ()
    kickoff := .ok ⟨none, none, none⟩ }

/-- A crew environment where building the Agent, Task and Crew objects
raises. -/
def envC : CrewEnv :=
  { toEnv := envAllFail
    crewai_available := true
    construct := .error ()
    kickoff := .ok ⟨none, none, none⟩ }

/-- A crew environment where `crew.kickoff()` raises. -/
def envK : CrewEnv :=
  { toEnv := envAllFail
    crewai_available := true
    construct := .ok ()
    kickoff := .error () }

/-- A crew environment where `crew.kickoff()` returns an object carrying a
raw attribute. -/
def envR : CrewEnv :=
  { toEnv := envAllFail
    crewai_available := true
    construct := .ok ()
    kickoff := .ok ⟨some "out", none, none⟩ }

/-! ## Helper lemmas -/

instance {E A : Type} [DecidableEq E] [DecidableEq A] : DecidableEq (Except E A) :=
  fun a b =>
    match a, b with
    | .error x, .error y =>
      if h : x = y then .isTrue (by rw [h]) else .isFalse (fun hh => h (Except.error.inj hh))
    | .ok x, .ok y =>
      if h : x = y then .isTrue (by rw [h]) else .isFalse (fun hh => h (Except.ok.inj hh))
    | .error _, .ok _ => .isFalse Except.noConfusion
    | .ok _, .error _ => .isFalse Except.noConfusion

theorem akeys_nil : akeys [] = [] := rfl

theorem akeys_cons (p : String × AuthorInfo) (m : AuthorMap) :
    akeys (p :: m) = p.1 :: akeys m := rfl

theorem lookupA_nil (k : String) : lookupA [] k = none := rfl

theorem lookupA_cons (p : String × AuthorInfo) (m : AuthorMap) (k : String) :
    lookupA (p :: m) k = if p.1 = k then some p.2 else lookupA m k := by
  unfold lookupA
  by_cases h : p.1 = k
  · rw [List.find?_cons_of_pos _ (by simp [h]), if_pos h]
    rfl
  · rw [List.find?_cons_of_neg _ (by simp [h]), if_neg h]

theorem akeys_map_overwrite (m : AuthorMap) (k : String) (v : AuthorInfo) :
    akeys (m.map fun p => if p.1 = k then (k, v) else p) = akeys m := by
  induction m with
  | nil => rfl
  | cons p rest ih =>
    rw [List.map_cons]
    by_cases h : p.1 = k
    · rw [if_pos h, akeys_cons, akeys_cons, ih, h]
    · rw [if_neg h, akeys_cons, akeys_cons, ih]

theorem akeys_insertAuthor (m : AuthorMap) (k : String) (v : AuthorInfo) :
    akeys (insertAuthor m k v) =
      if k ∈ akeys m then akeys m else akeys m ++ [k] := by
  unfold insertAuthor
  by_cases hmem : k ∈ akeys m
  · rw [if_pos hmem, if_pos (show k ∈ m.map Prod.fst from hmem)]
    exact akeys_map_overwrite m k v
  · rw [if_neg hmem, if_neg (show k ∉ m.map Prod.fst from hmem)]
    simp [akeys]

theorem lookupA_map_overwrite_self (m : AuthorMap) (k : String) (v : AuthorInfo)
    (hmem : k ∈ m.map Prod.fst) :
    lookupA (m.map fun p => if p.1 = k then (k, v) else p) k = some v := by
  induction m with
  | nil => simp at hmem
  | cons p rest ih =>
    rw [List.map_cons] at hmem ⊢
    by_cases h : p.1 = k
    · rw [if_pos h, lookupA_cons, if_pos rfl]
    · rw [if_neg h, lookupA_cons, if_neg h]
      rcases List.mem_cons.mp hmem with h1 | h2
      · exact absurd h1.symm h
      · exact ih h2

theorem lookupA_map_overwrite_ne (m : AuthorMap) (k : String) (v : AuthorInfo)
    (j : String) (hj : j ≠ k) :
    lookupA (m.map fun p => if p.1 = k then (k, v) else p) j = lookupA m j := by
  induction m with
  | nil => rfl
  | cons p rest ih =>
    rw [List.map_cons]
    by_cases h : p.1 = k
    · have h1 : ¬(k = j) := fun hh => hj hh.symm
      have h2 : ¬(p.1 = j) := by rw [h]; exact h1
      rw [if_pos h, lookupA_cons, lookupA_cons, if_neg h1, if_neg h2, ih]
    · by_cases h2 : p.1 = j
      · rw [if_neg h, lookupA_cons, lookupA_cons, if_pos h2, if_pos h2]
      · rw [if_neg h, lookupA_cons, lookupA_cons, if_neg h2, if_neg h2, ih]

theorem lookupA_append_single_self (m : AuthorMap) (k : String) (v : AuthorInfo)
    (hmem : k ∉ m.map Prod.fst) :
    lookupA (m ++ [(k, v)]) k = some v := by
  induction m with
  | nil => rw [List.nil_append, lookupA_cons, if_pos rfl]
  | cons p rest ih =>
    rw [List.map_cons] at hmem
    have h : ¬(p.1 = k) := fun hh => hmem (by rw [hh]; exact List.mem_cons_self _ _)
    have hrest : k ∉ rest.map Prod.fst := fun hh => hmem (List.mem_cons_of_mem _ hh)
    rw [List.cons_append, lookupA_cons, if_neg h]
    exact ih hrest

theorem lookupA_append_single_ne (m : AuthorMap) (k : String) (v : AuthorInfo)
    (j : String) (hj : j ≠ k) :
    lookupA (m ++ [(k, v)]) j = lookupA m j := by
  induction m with
  | nil =>
    have h1 : ¬(k = j) := fun hh => hj hh.symm
    rw [List.nil_append, lookupA_cons, if_neg h1, lookupA_nil]
  | cons p rest ih =>
    rw [List.cons_append, lookupA_cons, lookupA_cons]
    by_cases h2 : p.1 = j
    · rw [if_pos h2, if_pos h2]
    · rw [if_neg h2, if_neg h2, ih]

theorem lookupA_insertAuthor_self (m : AuthorMap) (k : String) (v : AuthorInfo) :
    lookupA (insertAuthor m k v) k = some v := by
  unfold insertAuthor
  by_cases hmem : k ∈ m.map Prod.fst
  · rw [if_pos hmem]
    exact lookupA_map_overwrite_self m k v hmem
  · rw [if_neg hmem]
    exact lookupA_append_single_self m k v hmem

theorem lookupA_insertAuthor_ne (m : AuthorMap) (k : String) (v : AuthorInfo)
    (j : String) (hj : j ≠ k) :
    lookupA (insertAuthor m k v) j = lookupA m j := by
  unfold insertAuthor
  by_cases hmem : k ∈ m.map Prod.fst
  · rw [if_pos hmem]
    exact lookupA_map_overwrite_ne m k v j hj
  · rw [if_neg hmem]
    exact lookupA_append_single_ne m k v j hj

theorem nodup_akeys_insertAuthor (m : AuthorMap) (k : String) (v : AuthorInfo)
    (hm : (akeys m).Nodup) : (akeys (insertAuthor m k v)).Nodup := by
  rw [akeys_insertAuthor]
  split
  · exact hm
  · rename_i hk
    simp [List.nodup_append, hm]
    intro hx
    exact hk hx

theorem nodup_akeys_processUsers (us : List User) (m : AuthorMap)
    (hm : (akeys m).Nodup) : (akeys (processUsers m us)).Nodup := by
  induction us generalizing m with
  | nil => exact hm
  | cons u rest ih =>
    exact ih _ (nodup_akeys_insertAuthor m u.id (toInfo u) hm)

theorem lookupA_processUsers (us : List User) (m : AuthorMap) (j : String) :
    lookupA (processUsers m us) j =
      match lastWith us j with
      | some u => some (toInfo u)
      | none => lookupA m j := by
  induction us generalizing m with
  | nil => rfl
  | cons u rest ih =>
    show lookupA (processUsers (insertAuthor m u.id (toInfo u)) rest) j = _
    rw [ih]
    cases hr : lastWith rest j with
    | some w => simp [lastWith, hr]
    | none =>
      simp only [lastWith, hr]
      by_cases h : u.id = j
      · subst h
        simp [lookupA_insertAuthor_self]
      · have hj : j ≠ u.id := fun hh => h hh.symm
        simp [h, lookupA_insertAuthor_ne m u.id (toInfo u) j hj]

theorem akeys_processUsers (us : List User) (m : AuthorMap) :
    akeys (processUsers m us) =
      (us.map User.id).foldl
        (fun acc x => if x ∈ acc then acc else acc ++ [x]) (akeys m) := by
  induction us generalizing m with
  | nil => rfl
  | cons u rest ih =>
    show akeys (processUsers (insertAuthor m u.id (toInfo u)) rest) = _
    rw [ih, akeys_insertAuthor]
    rfl

theorem processUsers_append (m : AuthorMap) (us vs : List User) :
    processUsers m (us ++ vs) = processUsers (processUsers m us) vs := by
  induction us generalizing m with
  | nil => rfl
  | cons u rest ih => exact ih (insertAuthor m u.id (toInfo u))

theorem saFrom_eq_processUsers_flatUsers (search : SearchCap) (kws : List String)
    (m : AuthorMap) : saFrom search m kws = processUsers m (flatUsers search kws) := by
  induction kws generalizing m with
  | nil => rfl
  | cons kw rest ih =>
    show saFrom search
        (match search kw with
         | .ok (some us) => processUsers m us
         | _ => m) rest =
      processUsers m (respUsers search kw ++ flatUsers search rest)
    rw [processUsers_append]
    cases h : search kw with
    | error e =>
      have hru : respUsers search kw = [] := by simp [respUsers, h]
      rw [hru]
      exact ih m
    | ok o =>
      cases o with
      | none =>
        have hru : respUsers search kw = [] := by simp [respUsers, h]
        rw [hru]
        exact ih m
      | some us =>
        have hru : respUsers search kw = us := by simp [respUsers, h]
        rw [hru]
        exact ih (processUsers m us)

theorem search_authors_eq (search : SearchCap) (kws : List String) :
    search_authors search kws = processUsers [] (flatUsers search kws) :=
  saFrom_eq_processUsers_flatUsers search kws []

theorem passesFilter_iff (followers t : Nat) :
    passesFilter followers t = true ↔ (MIN_FOLLOWERS ≤ followers ∧ MIN_TWEETS_2W ≤ t) := by
  simp [passesFilter]

theorem buildResultsTask_eq_buildResults (timeline : TimelineCap) (m : AuthorMap) :
    buildResultsTask timeline m = buildResults timeline m := by
  induction m with
  | nil => rfl
  | cons p rest ih =>
    obtain ⟨uid, info⟩ := p
    show (if MIN_FOLLOWERS ≤ info.followers ∧ MIN_TWEETS_2W ≤ count_tweets timeline uid
          then mkEntry info (count_tweets timeline uid) :: buildResultsTask timeline rest
          else buildResultsTask timeline rest) = _
    by_cases h : MIN_FOLLOWERS ≤ info.followers ∧ MIN_TWEETS_2W ≤ count_tweets timeline uid
    · rw [if_pos h, ih]
      show _ = (if passesFilter info.followers (count_tweets timeline uid) then _ else _)
      rw [if_pos ((passesFilter_iff _ _).mpr h)]
    · rw [if_neg h, ih]
      show _ = (if passesFilter info.followers (count_tweets timeline uid) then _ else _)
      have : ¬passesFilter info.followers (count_tweets timeline uid) = true :=
        fun hh => h ((passesFilter_iff _ _).mp hh)
      rw [if_neg this]

theorem mem_buildResults (timeline : TimelineCap) (m : AuthorMap) (e : ResultEntry)
    (he : e ∈ buildResults timeline m) :
    ∃ uid info, (uid, info) ∈ m ∧
      passesFilter info.followers (count_tweets timeline uid) = true ∧
      e = mkEntry info (count_tweets timeline uid) := by
  induction m with
  | nil => simp [buildResults] at he
  | cons p rest ih =>
    obtain ⟨uid, info⟩ := p
    by_cases h : passesFilter info.followers (count_tweets timeline uid) = true
    · have he2 : e ∈ mkEntry info (count_tweets timeline uid) :: buildResults timeline rest := by
        simpa [buildResults, h] using he
      rcases List.mem_cons.mp he2 with h1 | h2
      · exact ⟨uid, info, by simp, h, h1⟩
      · obtain ⟨uid2, info2, hmem, hp, heq⟩ := ih h2
        exact ⟨uid2, info2, by simp [hmem], hp, heq⟩
    · have he2 : e ∈ buildResults timeline rest := by
        simpa [buildResults, h] using he
      obtain ⟨uid2, info2, hmem, hp, heq⟩ := ih he2
      exact ⟨uid2, info2, by simp [hmem], hp, heq⟩

theorem round2_half_nat (t : Nat) : round2 ((t : ℚ) / 2) = (t : ℚ) / 2 := by
  unfold round2
  have h : ((t : ℚ) / 2) * 100 = ((50 * t : Nat) : ℚ) := by push_cast; ring
  rw [h, round_natCast]
  push_cast
  ring

theorem run_pipeline_ok_shape (env : Env) (topic : String) (rs : List ResultEntry)
    (ws : List Write) (h : run_pipeline env topic = .ok (rs, ws)) :
    ∃ kws, rs = buildResults env.timeline (search_authors env.search kws) ∧
      ws = [("results.json", SinkDoc.entries topic rs)] := by
  unfold run_pipeline at h
  split at h
  · exact absurd h (by simp)
  · split at h
    · exact absurd h (by simp)
    · rename_i kws _
      simp only [Except.ok.injEq, Prod.mk.injEq] at h
      refine ⟨kws, h.1.symm, ?_⟩
      rw [← h.2, h.1]


theorem saFrom_filter_ok (search : SearchCap) (kws : List String) (m : AuthorMap) :
    saFrom search m kws = saFrom search m (kws.filter fun kw => isOkB (search kw)) := by
  induction kws generalizing m with
  | nil => rfl
  | cons kw rest ih =>
    cases h : search kw with
    | error e =>
      have hf : (kw :: rest).filter (fun kw => isOkB (search kw)) =
          rest.filter fun kw => isOkB (search kw) := by
        simp [List.filter_cons, isOkB, h]
      rw [hf]
      show saFrom search
          (match search kw with
           | .ok (some us) => processUsers m us
           | _ => m) rest = _
      rw [h]
      exact ih m
    | ok o =>
      have hf : (kw :: rest).filter (fun kw => isOkB (search kw)) =
          kw :: (rest.filter fun kw => isOkB (search kw)) := by
        simp [List.filter_cons, isOkB, h]
      rw [hf]
      show saFrom search
          (match search kw with
           | .ok (some us) => processUsers m us
           | _ => m) rest =
        saFrom search
          (match search kw with
           | .ok (some us) => processUsers m us
           | _ => m) (rest.filter fun kw => isOkB (search kw))
      exact ih _

/-! ## Claim theorems -/

/-- C1: the orchestration task body `search_and_filter` and the direct path
`run_pipeline` compute the same result sequence for every topic and every
fixed behaviour of the external capabilities (the pipeline additionally
performs the sink write, which projecting to the first component ignores). -/
theorem search_and_filter_eq_run_pipeline (env : Env) (topic : String) (ctx : Unit) :
    search_and_filter env topic ctx = (run_pipeline env topic).map Prod.fst := by
  cases hg : generate_keywords env.llm env.loads topic with
  | error e => simp [search_and_filter, run_pipeline, hg, Except.map]
  | ok j =>
    cases hi : iterStrings j with
    | none => simp [search_and_filter, run_pipeline, hg, hi, Except.map]
    | some kws =>
      simp [search_and_filter, run_pipeline, hg, hi, Except.map,
        buildResultsTask_eq_buildResults]

/-- C4: filter thresholds are inclusive — the loop guard of `run_pipeline`
accepts a candidate iff followers are at least 5000 and the recent post count
is at least 6; the boundary candidate (5000, 6) passes, while 4999 followers
or 5 posts always fail; and `buildResults` keeps exactly the entries whose
guard passes. -/
theorem filter_thresholds_inclusive :
    (∀ f t, passesFilter f t = true ↔ (5000 ≤ f ∧ 6 ≤ t))
  ∧ passesFilter 5000 6 = true
  ∧ (∀ t, passesFilter 4999 t = false)
  ∧ (∀ f, passesFilter f 5 = false)
  ∧ (∀ tl uid info, buildResults tl [(uid, info)] =
      if passesFilter info.followers (count_tweets tl uid) = true
      then [mkEntry info (count_tweets tl uid)] else []) := by
  refine ⟨fun f t => passesFilter_iff f t, rfl, fun t => ?_, fun f => ?_,
    fun tl uid info => ?_⟩
  · simp [passesFilter, MIN_FOLLOWERS]
  · simp [passesFilter, MIN_TWEETS_2W]
  · show (if passesFilter info.followers (count_tweets tl uid) = true
          then mkEntry info (count_tweets tl uid) :: buildResults tl []
          else buildResults tl []) = _
    split <;> rfl

/-- C5: collector deduplication invariant.  For every keyword sequence (hence
for every prefix of any keyword sequence): the collector map has pairwise
distinct author identifiers; the stored value of each identifier is the one
derived from the LAST processed user object carrying that identifier (most
recently processed keyword wins); and the iteration order of the map is the
first-occurrence order of the identifiers (later overwrites do not move an
identifier). -/
theorem search_authors_dedup_invariant (search : SearchCap) (kws : List String) :
    (akeys (search_authors search kws)).Nodup
  ∧ (∀ j, lookupA (search_authors search kws) j =
      (lastWith (flatUsers search kws) j).map toInfo)
  ∧ akeys (search_authors search kws) =
      firstDedup ((flatUsers search kws).map User.id) := by
  refine ⟨?_, fun j => ?_, ?_⟩
  · rw [search_authors_eq]
    exact nodup_akeys_processUsers _ _ List.nodup_nil
  · rw [search_authors_eq, lookupA_processUsers]
    cases lastWith (flatUsers search kws) j <;> rfl
  · rw [search_authors_eq, akeys_processUsers]
    rfl

/-- C6: collector resilience — `search_authors` returns exactly the map
accumulated from the non-failing keywords: filtering the keyword list down to
those whose search succeeds does not change the result, so failing keywords
contribute zero candidates and do not abort the loop. -/
theorem search_authors_skips_failing (search : SearchCap) (kws : List String) :
    search_authors search kws =
      search_authors search (kws.filter fun kw => isOkB (search kw)) :=
  saFrom_filter_ok search kws []


/-- C2 counterexample: a failure of the text-generation capability IS fatal —
the `create` call of `generate_keywords` sits outside the `try`, so when it
raises, `run_pipeline` raises as well instead of completing and writing a
result set. -/
theorem run_pipeline_fatal_llm_error :
    run_pipeline envLlmRaises "US financial markets" = .error () := rfl

/-- C2 amended: failures of the search and timeline capabilities are never
fatal.  Whenever the keyword-generation step completes with an iterable value
(in particular whenever only search or timeline calls fail, or the content is
merely unparseable and the fallback list is used), `run_pipeline` completes
for EVERY behaviour of the search and timeline capabilities and writes the
(possibly empty) result set to `results.json`.  A raise of the
text-generation call itself, however, propagates and aborts the run. -/
theorem run_pipeline_total_given_keywords (env : Env) (topic : String) (j : Json)
    (kws : List String) (hg : generate_keywords env.llm env.loads topic = .ok j)
    (hi : iterStrings j = some kws) :
    run_pipeline env topic =
      .ok (buildResults env.timeline (search_authors env.search kws),
           [("results.json",
             SinkDoc.entries topic
               (buildResults env.timeline (search_authors env.search kws)))]) := by
  simp [run_pipeline, hg, hi]

/-- C2 amended, witness: with the fallback keywords and every search and
timeline call raising, the pipeline still completes and writes the empty
result set. -/
theorem run_pipeline_total_given_keywords_witness :
    run_pipeline envAllFail "w" = .ok ([], [("results.json", SinkDoc.entries "w" [])]) := by
  have h := run_pipeline_total_given_keywords envAllFail "w" fallbackJson
    ["US stock market", "Wall Street", "S&P 500"] rfl rfl
  exact h.trans rfl

/-- C3 counterexample: `generate_keywords` does NOT return the fallback list
for every failing outcome.  A successfully parsed non-array JSON value is
returned verbatim (first conjunct), and an error raised by the
text-generation call itself propagates instead of being swallowed (second
conjunct). -/
theorem generate_keywords_nonfallback :
    generate_keywords llmContent loadsNotArr "t" 3 ≠ .ok fallbackJson
  ∧ generate_keywords llmRaise loadsNone "t" 3 = .error () := by
  constructor
  · intro h
    have h2 : Json.notArr (some []) = fallbackJson := Except.ok.inj h
    exact absurd h2 (by decide)
  · rfl

/-- C3 amended: `generate_keywords` returns the fixed fallback list
`["US stock market", "Wall Street", "S&P 500"]` exactly when obtaining or
parsing the content fails (content `None` or inaccessible, or malformed
JSON); a successfully parsed JSON value — array or not — is returned
verbatim; and an error raised by the text-generation call itself propagates
out of the function. -/
theorem generate_keywords_cases (llm : LlmCap) (loads : String → Option Json)
    (topic : String) (n : Nat) :
    (llm topic n = .ok none → generate_keywords llm loads topic n = .ok fallbackJson)
  ∧ (∀ s, llm topic n = .ok (some s) → loads s = none →
      generate_keywords llm loads topic n = .ok fallbackJson)
  ∧ (∀ s j, llm topic n = .ok (some s) → loads s = some j →
      generate_keywords llm loads topic n = .ok j)
  ∧ (∀ e, llm topic n = .error e → generate_keywords llm loads topic n = .error e) := by
  refine ⟨fun h => ?_, fun s h1 h2 => ?_, fun s j h1 h2 => ?_, fun e h => ?_⟩ <;>
    simp [generate_keywords, *]

/-- C3 amended, witness: the four branches at concrete capabilities — content
`None`, malformed content, a parsed empty array returned verbatim, and a
raising `create` call. -/
theorem generate_keywords_cases_witness :
    generate_keywords llmNoContent loadsNone "t" 3 = .ok fallbackJson
  ∧ generate_keywords llmContent loadsNone "t" 3 = .ok fallbackJson
  ∧ generate_keywords llmContent loadsEmptyArr "t" 3 = .ok (Json.arr [])
  ∧ generate_keywords llmRaise loadsNone "t" 3 = .error () :=
  ⟨(generate_keywords_cases llmNoContent loadsNone "t" 3).1 rfl,
   (generate_keywords_cases llmContent loadsNone "t" 3).2.1 "resp" rfl rfl,
   (generate_keywords_cases llmContent loadsEmptyArr "t" 3).2.2.1 "resp" (Json.arr []) rfl rfl,
   (generate_keywords_cases llmRaise loadsNone "t" 3).2.2.2 () rfl⟩

/-- C7: for every entry of a completed pipeline run, `avg_posts_per_week`
equals the recent post count divided by 2 rounded to 2 decimal places (which
is exact here, the value being a multiple of one half); in particular a
recent post count of 7 yields 3.5. -/
theorem avg_posts_per_week_spec (env : Env) (topic : String) (rs : List ResultEntry)
    (ws : List Write) (h : run_pipeline env topic = .ok (rs, ws))
    (e : ResultEntry) (he : e ∈ rs) :
    e.avg_posts_per_week = round2 ((e.tweets_last_2_weeks : ℚ) / 2)
  ∧ e.avg_posts_per_week = (e.tweets_last_2_weeks : ℚ) / 2
  ∧ (e.tweets_last_2_weeks = 7 → e.avg_posts_per_week = (3.5 : ℚ)) := by
  obtain ⟨kws, hrs, -⟩ := run_pipeline_ok_shape env topic rs ws h
  subst hrs
  obtain ⟨uid, info, -, -, heq⟩ := mem_buildResults _ _ e he
  subst heq
  refine ⟨rfl, round2_half_nat _, fun h7 => ?_⟩
  show round2 ((count_tweets env.timeline uid : ℚ) / 2) = (3.5 : ℚ)
  have h7c : count_tweets env.timeline uid = 7 := h7
  rw [h7c, round2_half_nat]
  norm_num

/-- C7 witness: in a concrete run where user alice has 8000 followers and 7
recent posts, the produced entry has an average of 3.5 posts per week. -/
theorem avg_posts_per_week_spec_witness :
    (mkEntry ⟨"alice", 8000⟩ 7).avg_posts_per_week = (3.5 : ℚ) := by
  have h := avg_posts_per_week_spec env7 "t"
    [mkEntry ⟨"alice", 8000⟩ 7]
    [("results.json", SinkDoc.entries "t" [mkEntry ⟨"alice", 8000⟩ 7])]
    rfl (mkEntry ⟨"alice", 8000⟩ 7) (List.mem_singleton.mpr rfl)
  exact h.2.2 rfl

/-- C8: `count_tweets` is total over external outcomes — it returns the
number of posts when the timeline response carries data, 0 when the response
is falsy or has no data, and 0 when the timeline capability raises; it never
propagates an exception (it is a total function into `Nat`). -/
theorem count_tweets_total (timeline : TimelineCap) (uid : String) :
    (∀ posts, timeline uid = .ok (some posts) →
      count_tweets timeline uid = posts.length)
  ∧ (timeline uid = .ok none → count_tweets timeline uid = 0)
  ∧ (∀ e, timeline uid = .error e → count_tweets timeline uid = 0) := by
  refine ⟨fun posts h => ?_, fun h => ?_, fun e h => ?_⟩ <;>
    simp [count_tweets, h]

/-- C8 witness: two posts are counted as 2; an empty response and a raising
capability both count as 0. -/
theorem count_tweets_total_witness :
    count_tweets tlData "u" = 2
  ∧ count_tweets tlNone "u" = 0
  ∧ count_tweets tlErr "u" = 0 :=
  ⟨(count_tweets_total tlData "u").1 [(), ()] rfl,
   (count_tweets_total tlNone "u").2.1 rfl,
   (count_tweets_total tlErr "u").2.2 () rfl⟩


/-- C9 counterexample: the claim fails in two ways.  First conjunct: when the
orchestration abstraction is unavailable, `run_crewai` runs the direct
pipeline, whose only write goes to `results.json` — nothing is written to the
distinct sink `results_crewai.json`.  Second conjunct: when building the
Agent, Task and Crew objects raises (these constructions sit outside the
`try`), the error propagates instead of falling back. -/
theorem run_crewai_sink_counterexample :
    run_crewai envU "t" = .ok (.pipeline [], [("results.json", SinkDoc.entries "t" [])])
  ∧ run_crewai envC "t" = .error () :=
  ⟨rfl, rfl⟩

/-- C9 amended: when the orchestration abstraction is unavailable,
`run_crewai` behaves exactly like the direct pipeline (writing only
`results.json`); when object construction raises, the error propagates with
no fallback; when `kickoff` raises, execution falls back to the direct
pipeline — which writes `results.json` — and the result is ADDITIONALLY
written to `results_crewai.json`; when `kickoff` succeeds, the extracted
result is written to `results_crewai.json` only. -/
theorem run_crewai_paths (env : CrewEnv) (topic : String) :
    (env.crewai_available = false →
      run_crewai env topic =
        (run_pipeline env.toEnv topic).map fun p => (ResultDataRepr.pipeline p.1, p.2))
  ∧ (env.crewai_available = true → env.construct = .error () →
      run_crewai env topic = .error ())
  ∧ (∀ rs ws, env.crewai_available = true → env.construct = .ok () →
      env.kickoff = .error () → run_pipeline env.toEnv topic = .ok (rs, ws) →
      run_crewai env topic =
        .ok (.pipeline rs,
             ws ++ [("results_crewai.json", SinkDoc.data topic (.pipeline rs))]))
  ∧ (∀ r, env.crewai_available = true → env.construct = .ok () →
      env.kickoff = .ok r →
      run_crewai env topic =
        .ok (extractResultData r,
             [("results_crewai.json", SinkDoc.data topic (extractResultData r))])) := by
  refine ⟨fun h1 => ?_, fun h1 h2 => ?_, fun rs ws h1 h2 h3 h4 => ?_,
    fun r h1 h2 h3 => ?_⟩ <;>
    simp [run_crewai, *]

/-- C9 amended, witness: concrete runs of the kickoff-raises branch (both
sinks written) and the kickoff-succeeds branch (only the crewai sink
written). -/
theorem run_crewai_paths_witness :
    run_crewai envK "t" =
      .ok (.pipeline [],
           [("results.json", SinkDoc.entries "t" []),
            ("results_crewai.json", SinkDoc.data "t" (.pipeline []))])
  ∧ run_crewai envR "t" =
      .ok (.raw "out", [("results_crewai.json", SinkDoc.data "t" (.raw "out"))]) := by
  constructor
  · have h := (run_crewai_paths envK "t").2.2.1 []
      [("results.json", SinkDoc.entries "t" [])] rfl rfl rfl rfl
    simpa using h
  · have h := (run_crewai_paths envR "t").2.2.2 ⟨some "out", none, none⟩ rfl rfl rfl
    simpa using h

/-- C10 counterexample: a user object lacking the followers_count metric does
NOT guarantee the candidate stays out of the results.  In this run the first
keyword returns user 1 without the metric (first conjunct), the second
keyword returns the same user with 8000 followers, the dict overwrite
replaces the zero, and an entry for that candidate DOES appear in the final
result sequence (second conjunct). -/
theorem missing_metric_overwrite_counterexample :
    envOverwrite.search "US stock market" =
      .ok (some [{ id := "1", username := "a", followers_count := none }])
  ∧ run_pipeline envOverwrite "t" =
      .ok ([mkEntry ⟨"a", 8000⟩ 10],
           [("results.json", SinkDoc.entries "t" [mkEntry ⟨"a", 8000⟩ 10])]) :=
  ⟨rfl, rfl⟩

/-- C10 amended: a user object lacking the followers_count metric is recorded
with followers = 0, and a candidate whose recorded followers value is 0 can
never contribute an entry to the result sequence for any activity count
(0 is below the 5000 threshold) — but this only pins the candidate down when
the zero survives, since a later occurrence of the same identifier carrying
the metric overwrites it. -/
theorem missing_followers_never_qualify :
    (∀ u : User, u.followers_count = none → (toInfo u).followers = 0)
  ∧ (∀ t, passesFilter 0 t = false)
  ∧ (∀ tl m name t, mkEntry ⟨name, 0⟩ t ∉ buildResults tl m) := by
  refine ⟨fun u hu => by simp [toInfo, hu], fun t => by simp [passesFilter, MIN_FOLLOWERS],
    fun tl m name t hmem => ?_⟩
  obtain ⟨uid, info, -, hp, heq⟩ := mem_buildResults tl m _ hmem
  have hf : (0 : Nat) = info.followers := congrArg ResultEntry.followers heq
  have h5 := (passesFilter_iff _ _).mp hp
  rw [← hf] at h5
  exact absurd h5.1 (by decide)

/-- C10 amended, witness: a concrete metric-less user is recorded with 0
followers, 0 followers fail the filter at every activity count tried, and a
zero-followers entry is absent from a concrete result list. -/
theorem missing_followers_never_qualify_witness :
    (toInfo ⟨"1", "a", none⟩).followers = 0
  ∧ passesFilter 0 99 = false
  ∧ mkEntry ⟨"a", 0⟩ 99 ∉ buildResults tlData [("1", ⟨"a", 0⟩)] :=
  ⟨missing_followers_never_qualify.1 ⟨"1", "a", none⟩ rfl,
   missing_followers_never_qualify.2.1 99,
   missing_followers_never_qualify.2.2 tlData [("1", ⟨"a", 0⟩)] "a" 99⟩

end CreatorPipeline
